import Mathlib

/-!
Verification of the concurrent fetch/health/scheduling core of the
otc-api-server repository, shallowly embedded from the Go sources:

* internal/scoring/engine.go      — rule-evaluation scoring engine
* internal/scraper/health_monitor.go — rolling health monitor
* internal/scraper/oxylabs_client.go — single/batch page fetch client
* internal/scraper/client.go      — rate-limited direct HTTP client
* internal/scraper/scraper.go     — scrape orchestrator (ScrapeTicker)
* internal/services/scoring_pipeline.go — start/stop scheduling pipeline

Machine integers are modelled as Nat/Int (the Go counters only increment or
reset), Go float64 quantities as exact rationals, timestamps as rational
hours, Go maps as association lists with replace-on-insert, and external
effects (JSON decoding, HTTP transport, HTML parsing, date parsing, regex
matching) as explicit environment functions supplied to the embedding.
-/

namespace OTC

/-- Substring test with the semantics of Go strings.Contains: true when the
needle is empty or occurs somewhere in the haystack. -/
def strContains (s sub : String) : Bool :=
  sub.isEmpty || (s.splitOn sub).length ≥ 2

/-- Whitespace-separated fields, as Go strings.Fields: split on whitespace
runs and drop empty pieces. -/
def strFields (s : String) : List String :=
  (s.split Char.isWhitespace).filter (fun w => ¬w.isEmpty)

/-- Dynamic Go value (interface\x7b\x7d) as stored in a company-data map:
strings, integers, floats (as exact rationals), booleans, time.Time and
*time.Time values (as rational hours since the zero time), nested lists,
and nil. -/
inductive GoVal where
  | vNull
  | vStr (s : String)
  | vInt (n : ℤ)
  | vFloat (q : ℚ)
  | vBool (b : Bool)
  | vTime (hours : ℚ)
  | vTimePtr (t : Option ℚ)
  | vList (elems : List GoVal)
deriving Repr, BEq

mutual

/-- Rendering of a dynamic value by fmt.Sprintf with verb v, as used
throughout the engine for string comparison and breakdown values. The
renderings of floats and times are abstractions (the scoring claims never
depend on them); nil prints as in Go. -/
def goStr : GoVal → String
  | .vNull => "<nil>"
  | .vStr s => s
  | .vInt n => toString n
  | .vFloat q => toString q
  | .vBool b => cond b "true" "false"
  | .vTime t => "time " ++ toString t
  | .vTimePtr none => "<nil>"
  | .vTimePtr (some t) => "time " ++ toString t
  | .vList l => "[" ++ goStrList l ++ "]"

/-- Space-separated rendering of a list of dynamic values. -/
def goStrList : List GoVal → String
  | [] => ""
  | [x] => goStr x
  | x :: xs => goStr x ++ " " ++ goStrList xs

end

/-- Association-list model of a Go map with string keys. -/
abbrev GoMap (α : Type) := List (String × α)

/-- Map lookup (m\x5bk\x5d with presence flag collapsed into Option). -/
def GoMap.findVal {α : Type} (m : GoMap α) (k : String) : Option α :=
  (m.find? (fun p => p.1 == k)).map Prod.snd

/-- Map assignment m\x5bk\x5d = v: replace the binding if the key is
present, otherwise append it. -/
def GoMap.insertKV {α : Type} : GoMap α → String → α → GoMap α
  | [], k, v => [(k, v)]
  | (k', v') :: rest, k, v =>
    if k' == k then (k, v) :: rest else (k', v') :: GoMap.insertKV rest k v

theorem GoMap.findVal_insertKV_self {α : Type} (m : GoMap α) (k : String) (v : α) :
    (m.insertKV k v).findVal k = some v := by
  induction m with
  | nil => simp [GoMap.insertKV, GoMap.findVal]
  | cons p rest ih =>
    by_cases h : p.1 = k
    · simp [GoMap.insertKV, GoMap.findVal, h]
    · simpa [GoMap.insertKV, GoMap.findVal, h] using ih

theorem GoMap.findVal_insertKV_ne {α : Type} (m : GoMap α) (k k' : String) (v : α)
    (h : k' ≠ k) : (m.insertKV k v).findVal k' = m.findVal k' := by
  induction m with
  | nil => simp [GoMap.insertKV, GoMap.findVal, Ne.symm h]
  | cons p rest ih =>
    by_cases hp : p.1 = k
    · simp [GoMap.insertKV, GoMap.findVal, hp, Ne.symm h]
    · by_cases hp' : p.1 = k'
      · simp [GoMap.insertKV, GoMap.findVal, hp, hp', h]
      · simpa [GoMap.insertKV, GoMap.findVal, hp, hp'] using ih

theorem GoMap.findVal_insertKV_isSome {α : Type} (m : GoMap α) (k k' : String) (v : α)
    (h : (m.findVal k').isSome) : ((m.insertKV k v).findVal k').isSome := by
  by_cases hk : k' = k
  · subst hk; simp [GoMap.findVal_insertKV_self]
  · rwa [GoMap.findVal_insertKV_ne _ _ _ _ hk]

/-! ## Scoring engine (internal/scoring/engine.go) -/

/-- External effects used by the engine: the "2006-01-02" date parser
(returning the parsed instant in hours since the zero time, none on parse
failure), the regex matcher (pattern, then subject; a regexp error counts
as no match), and the current instant time.Now used by time.Since. -/
structure EngineEnv where
  parseDate : String → Option ℚ
  regexMatch : String → String → Bool
  now : ℚ

/-- A mandatory requirement or exclusion condition of an ICP model. -/
structure Requirement where
  field : String
  operator : String
  value : GoVal
  description : String

/-- A single weighted scoring rule. -/
structure ScoringRule where
  field : String
  operator : String
  value : GoVal
  weight : ℤ
  description : String

/-- An Ideal Customer Profile scoring model. -/
structure ICPModel where
  id : String
  name : String
  description : String
  version : ℤ
  requirements : List Requirement
  exclusions : List Requirement
  rules : List ScoringRule
  minScore : ℤ
  isActive : Bool

/-- Detailed information about one scoring component in the breakdown. -/
structure ScoreDetail where
  points : ℤ
  triggered : Bool
  description : String
  value : String
deriving Repr

/-- The result of scoring a company against one model. -/
structure ScoreResult where
  companyID : String
  scoringModelID : String
  score : ℤ
  qualified : Bool
  requirementsMet : Bool
  breakdown : GoMap ScoreDetail
  scoredAt : ℚ

/-- Numeric coercion toFloat64: floats and the integer widths convert,
everything else does not. -/
def toFloat64 : GoVal → Option ℚ
  | .vFloat q => some q
  | .vInt n => some (n : ℚ)
  | _ => none

/-- compareNumbers: numeric comparison after coercion; non-numeric operands
never match. -/
def compareNumbers (actual expected : GoVal) (operator : String) : Bool :=
  match toFloat64 actual, toFloat64 expected with
  | some a, some e =>
    match operator with
    | ">" => decide (a > e)
    | "<" => decide (a < e)
    | ">=" => decide (a ≥ e)
    | "<=" => decide (a ≤ e)
    | _ => false
  | _, _ => false

/-- evaluateInList: membership in a list value or in a comma-delimited
string (items trimmed), compared via their printed forms. -/
def evaluateInList (actual expected : GoVal) : Bool :=
  let actualStr := goStr actual
  match expected with
  | .vList l => l.any (fun item => goStr item == actualStr)
  | .vStr s => (s.splitOn ",").any (fun item => item.trim == actualStr)
  | _ => false

/-- Months elapsed between a stored instant and now, with the engine's
30.44-day month: time.Since(t).Hours() / 24 / 30.44. -/
def monthsSince (now t : ℚ) : ℚ :=
  (now - t) / 24 / (761 / 25)

/-- evaluateDelinquency: a date field indicates delinquency when it is
absent, nil, unparsable (or of unknown dynamic type), or more than the
threshold number of months old. -/
def evaluateDelinquency (env : EngineEnv) (data : GoMap GoVal)
    (dateField : String) (monthsThreshold : ℕ) : Bool :=
  match data.findVal dateField with
  | none => true
  | some .vNull => true
  | some (.vTime t) => decide (monthsSince env.now t > (monthsThreshold : ℚ))
  | some (.vTimePtr none) => true
  | some (.vTimePtr (some t)) => decide (monthsSince env.now t > (monthsThreshold : ℚ))
  | some (.vStr s) =>
    match env.parseDate s with
    | none => true
    | some t => decide (monthsSince env.now t > (monthsThreshold : ℚ))
  | some _ => true

/-- Risky market tiers recognised by evaluateMarketTierRisk. -/
def riskTiers : List String :=
  ["pink limited", "expert market", "grey market", "gray market"]

/-- evaluateMarketTierRisk: the market_tier text names a risky tier. -/
def evaluateMarketTierRisk (data : GoMap GoVal) : Bool :=
  match data.findVal "market_tier" with
  | none => false
  | some tier => riskTiers.any (fun rt => strContains (goStr tier).toLower rt)

/-- evaluateDescriptionKeywords: keyword containment over the lowered
business description (absent or nil description never matches). -/
def evaluateDescriptionKeywords (data : GoMap GoVal) (keywords : List String) : Bool :=
  match data.findVal "description" with
  | none => false
  | some .vNull => false
  | some d => keywords.any (fun kw => strContains (goStr d).toLower kw.toLower)

/-- Asian country/region indicators checked by containsAsianLocations. -/
def asianIndicators : List String :=
  ["taiwan", "tw", "hong kong", "hk", "china", "cn", "singapore", "sg",
   "beijing", "shanghai", "shenzhen", "taipei", "macau", "mo"]

/-- containsAsianLocations: any indicator occurs in the lowered text. -/
def containsAsianLocations (text : String) : Bool :=
  asianIndicators.any (fun ind => strContains text.toLower ind)

/-- evaluateAsianManagement: indicators in the officers data or the company
address. -/
def evaluateAsianManagement (data : GoMap GoVal) : Bool :=
  (match data.findVal "officers" with
   | none => false
   | some .vNull => false
   | some v => containsAsianLocations (goStr v)) ||
  (match data.findVal "address" with
   | none => false
   | some .vNull => false
   | some v => containsAsianLocations (goStr v))

/-- getOfficerLocations: the officers value for display, with a placeholder
when absent. -/
def getOfficerLocations (data : GoMap GoVal) : GoVal :=
  match data.findVal "officers" with
  | none => .vStr "No officer data"
  | some v => v

/-- Reputable transfer agents allowlist. -/
def reputableAgents : List String :=
  ["computershare", "continental", "american stock", "island stock",
   "vstock", "pacific stock", "securities transfer", "registrar and transfer"]

/-- evaluateActiveTransferAgent: non-empty agent text that is reputable, or
at least not obviously fake (unknown/none). -/
def evaluateActiveTransferAgent (data : GoMap GoVal) : Bool :=
  match data.findVal "transfer_agent" with
  | none => false
  | some .vNull => false
  | some a =>
    let agentStr := (goStr a).toLower
    if agentStr.trim.length == 0 then false
    else if reputableAgents.any (fun rep => strContains agentStr rep) then true
    else !strContains agentStr "unknown" && !strContains agentStr "none"

/-- evaluateDomainMatch: some significant company-name word (longer than 3
characters, excluding generic suffixes) occurs in the website host. -/
def evaluateDomainMatch (data : GoMap GoVal) : Bool :=
  match data.findVal "website", data.findVal "company_name" with
  | some .vNull, _ => false
  | _, some .vNull => false
  | some w, some n =>
    let websiteStr0 := (goStr w).toLower
    let nameStr := (goStr n).toLower
    let websiteStr1 :=
      if strContains websiteStr0 "//" then
        let parts := websiteStr0.splitOn "//"
        if parts.length > 1 then parts.getD 1 websiteStr0 else websiteStr0
      else websiteStr0
    let websiteStr2 :=
      if strContains websiteStr1 "/" then (websiteStr1.splitOn "/").headD websiteStr1
      else websiteStr1
    let websiteStr3 :=
      if websiteStr2.startsWith "www." then websiteStr2.drop 4 else websiteStr2
    let nameWords := strFields (nameStr.replace "," " ")
    nameWords.any (fun w0 =>
      let word := w0.toLower.trim
      decide (word.length > 3) && word != "inc" && word != "corp" &&
        word != "company" && word != "ltd" && strContains websiteStr3 word)
  | _, _ => false

/-- evaluateAuditorPresent: non-empty auditor text not matching
unknown/none. -/
def evaluateAuditorPresent (data : GoMap GoVal) : Bool :=
  match data.findVal "auditor" with
  | none => false
  | some .vNull => false
  | some a =>
    let auditorStr := (goStr a).trim
    decide (auditorStr.length > 0) &&
      !strContains auditorStr.toLower "unknown" &&
      !strContains auditorStr.toLower "none"

/-- The stored value for a field, with nil standing in for an absent key
(both print as nil in the returned breakdown value). -/
def fieldValOr (data : GoMap GoVal) (k : String) : GoVal :=
  (data.findVal k).getD .vNull

/-- evaluateCondition: computed fields evaluate themselves (ignoring the
supplied operator and literal value); everything else is a standard
field/operator comparison, with unknown operators and missing fields
never matching. -/
def evaluateCondition (env : EngineEnv) (data : GoMap GoVal)
    (field operator : String) (expectedValue : GoVal) : Bool × GoVal :=
  match field with
  | "delinquent_10k" =>
    (evaluateDelinquency env data "last_10k_date" 15, fieldValOr data "last_10k_date")
  | "delinquent_10q" =>
    (evaluateDelinquency env data "last_10q_date" 6, fieldValOr data "last_10q_date")
  | "no_recent_activity" =>
    (evaluateDelinquency env data "last_filing_date" 12, fieldValOr data "last_filing_date")
  | "pink_limited_or_expert" =>
    (evaluateMarketTierRisk data, fieldValOr data "market_tier")
  | "reverse_merger_shell" =>
    (evaluateDescriptionKeywords data ["reverse merger", "shell company", "shell corporation"],
     fieldValOr data "description")
  | "asian_management" =>
    (evaluateAsianManagement data, getOfficerLocations data)
  | "cannabis_or_crypto" =>
    (evaluateDescriptionKeywords data ["cannabis", "cbd", "marijuana", "blockchain", "crypto", "bitcoin"],
     fieldValOr data "description")
  | "holding_company_or_spac" =>
    (evaluateDescriptionKeywords data ["blank check", "spac", "holding company", "special purpose"],
     fieldValOr data "description")
  | "active_transfer_agent" =>
    (evaluateActiveTransferAgent data, fieldValOr data "transfer_agent")
  | "domain_linked_to_company" =>
    (evaluateDomainMatch data, fieldValOr data "website")
  | "auditor_identified" =>
    (evaluateAuditorPresent data, fieldValOr data "auditor")
  | "no_verified_profile" =>
    (match data.findVal "profile_verified" with
     | some (.vBool verified) => (!verified, .vBool verified)
     | _ => (true, .vBool false))
  | _ =>
    match data.findVal field with
    | none => (false, .vNull)
    | some actualValue =>
      match operator with
      | "equals" => (goStr actualValue == goStr expectedValue, actualValue)
      | "not_equals" => (goStr actualValue != goStr expectedValue, actualValue)
      | "contains" =>
        (strContains (goStr actualValue).toLower (goStr expectedValue).toLower, actualValue)
      | "greater_than" => (compareNumbers actualValue expectedValue ">", actualValue)
      | "less_than" => (compareNumbers actualValue expectedValue "<", actualValue)
      | "greater_than_or_equal" => (compareNumbers actualValue expectedValue ">=", actualValue)
      | "less_than_or_equal" => (compareNumbers actualValue expectedValue "<=", actualValue)
      | "is_true" =>
        (match actualValue with
         | .vBool b => (b, actualValue)
         | _ => (goStr actualValue == "true", actualValue))
      | "is_false" =>
        (match actualValue with
         | .vBool b => (!b, actualValue)
         | _ => (goStr actualValue == "false", actualValue))
      | "in" => (evaluateInList actualValue expectedValue, actualValue)
      | "not_in" => (!evaluateInList actualValue expectedValue, actualValue)
      | "regex" => (env.regexMatch (goStr expectedValue) (goStr actualValue), actualValue)
      | _ => (false, actualValue)

/-- One iteration of the mandatory-requirements loop of ScoreCompany:
an unmet requirement clears the running requirements-met flag; either way
a breakdown entry is recorded under the field_requirement key. -/
def requirementStep (env : EngineEnv) (data : GoMap GoVal)
    (acc : Bool × GoMap ScoreDetail) (req : Requirement) : Bool × GoMap ScoreDetail :=
  let mv := evaluateCondition env data req.field req.operator req.value
  if mv.1 then
    (acc.1, acc.2.insertKV (req.field ++ "_requirement")
      ⟨0, true, "REQUIREMENT MET: " ++ req.description, goStr mv.2⟩)
  else
    (false, acc.2.insertKV (req.field ++ "_requirement")
      ⟨0, false, "REQUIREMENT: " ++ req.description, goStr mv.2⟩)

/-- One iteration of the exclusions loop of ScoreCompany: a holding
exclusion clears the requirements-met flag; either way a breakdown entry is
recorded under the field_exclusion key. -/
def exclusionStep (env : EngineEnv) (data : GoMap GoVal)
    (acc : Bool × GoMap ScoreDetail) (exclusion : Requirement) : Bool × GoMap ScoreDetail :=
  let mv := evaluateCondition env data exclusion.field exclusion.operator exclusion.value
  if mv.1 then
    (false, acc.2.insertKV (exclusion.field ++ "_exclusion")
      ⟨0, true, "EXCLUSION VIOLATED: " ++ exclusion.description, goStr mv.2⟩)
  else
    (acc.1, acc.2.insertKV (exclusion.field ++ "_exclusion")
      ⟨0, false, "EXCLUSION OK: " ++ exclusion.description, goStr mv.2⟩)

/-- One iteration of the scoring-rules loop: a triggered rule adds its
(possibly negative) weight to the running score and records its points. -/
def ruleStep (env : EngineEnv) (data : GoMap GoVal)
    (acc : ℤ × GoMap ScoreDetail) (rule : ScoringRule) : ℤ × GoMap ScoreDetail :=
  let mv := evaluateCondition env data rule.field rule.operator rule.value
  if mv.1 then
    (acc.1 + rule.weight, acc.2.insertKV rule.field
      ⟨rule.weight, true, rule.description, goStr mv.2⟩)
  else
    (acc.1, acc.2.insertKV rule.field ⟨0, false, rule.description, goStr mv.2⟩)

/-- ScoreCompany: check requirements and exclusions first, recording every
evaluation in the breakdown; only when all requirements hold and no
exclusion holds are the weighted rules applied, and the company qualifies
exactly when the accumulated score reaches the model minimum. -/
def ScoreCompany (env : EngineEnv) (companyData : GoMap GoVal) (model : ICPModel) : ScoreResult :=
  let st1 := model.requirements.foldl (requirementStep env companyData) (true, [])
  let st2 := model.exclusions.foldl (exclusionStep env companyData) st1
  if st2.1 then
    let st3 := model.rules.foldl (ruleStep env companyData) (0, st2.2)
    { companyID := "", scoringModelID := model.id, score := st3.1,
      qualified := decide (model.minScore ≤ st3.1), requirementsMet := true,
      breakdown := st3.2, scoredAt := env.now }
  else
    { companyID := "", scoringModelID := model.id, score := 0,
      qualified := false, requirementsMet := false,
      breakdown := st2.2, scoredAt := env.now }

/-- The requirements loop leaves the requirements-met flag true exactly when
it started true and every requirement condition holds. -/
theorem reqFold_fst (env : EngineEnv) (data : GoMap GoVal) :
    ∀ (reqs : List Requirement) (acc : Bool × GoMap ScoreDetail),
      (reqs.foldl (requirementStep env data) acc).1
        = (acc.1 && reqs.all (fun r => (evaluateCondition env data r.field r.operator r.value).1)) := by
  intro reqs
  induction reqs with
  | nil => intro acc; simp
  | cons r rs ih =>
    intro acc
    rw [List.foldl_cons, ih]
    by_cases h : (evaluateCondition env data r.field r.operator r.value).1 <;>
      simp [requirementStep, h, Bool.and_assoc]

/-- The exclusions loop leaves the flag true exactly when it started true
and no exclusion condition holds. -/
theorem exclFold_fst (env : EngineEnv) (data : GoMap GoVal) :
    ∀ (excls : List Requirement) (acc : Bool × GoMap ScoreDetail),
      (excls.foldl (exclusionStep env data) acc).1
        = (acc.1 && excls.all (fun x => !(evaluateCondition env data x.field x.operator x.value).1)) := by
  intro excls
  induction excls with
  | nil => intro acc; simp
  | cons x xs ih =>
    intro acc
    rw [List.foldl_cons, ih]
    by_cases h : (evaluateCondition env data x.field x.operator x.value).1 <;>
      simp [exclusionStep, h, Bool.and_assoc]

/-- The requirements loop only ever inserts breakdown entries, so recorded
keys survive it. -/
theorem reqFold_preserves (env : EngineEnv) (data : GoMap GoVal) :
    ∀ (reqs : List Requirement) (acc : Bool × GoMap ScoreDetail) (k : String),
      ((acc.2).findVal k).isSome →
      (((reqs.foldl (requirementStep env data) acc).2).findVal k).isSome := by
  intro reqs
  induction reqs with
  | nil => intro acc k h; simpa using h
  | cons r rs ih =>
    intro acc k h
    rw [List.foldl_cons]
    refine ih _ _ ?_
    by_cases hm : (evaluateCondition env data r.field r.operator r.value).1 <;>
      simpa [requirementStep, hm] using GoMap.findVal_insertKV_isSome _ _ _ _ h

/-- The exclusions loop only ever inserts breakdown entries, so recorded
keys survive it. -/
theorem exclFold_preserves (env : EngineEnv) (data : GoMap GoVal) :
    ∀ (excls : List Requirement) (acc : Bool × GoMap ScoreDetail) (k : String),
      ((acc.2).findVal k).isSome →
      (((excls.foldl (exclusionStep env data) acc).2).findVal k).isSome := by
  intro excls
  induction excls with
  | nil => intro acc k h; simpa using h
  | cons x xs ih =>
    intro acc k h
    rw [List.foldl_cons]
    refine ih _ _ ?_
    by_cases hm : (evaluateCondition env data x.field x.operator x.value).1 <;>
      simpa [exclusionStep, hm] using GoMap.findVal_insertKV_isSome _ _ _ _ h

/-- Every requirement processed by the requirements loop leaves a breakdown
entry under its field_requirement key. -/
theorem reqFold_mem (env : EngineEnv) (data : GoMap GoVal) :
    ∀ (reqs : List Requirement) (acc : Bool × GoMap ScoreDetail) (r : Requirement),
      r ∈ reqs →
      (((reqs.foldl (requirementStep env data) acc).2).findVal (r.field ++ "_requirement")).isSome := by
  intro reqs
  induction reqs with
  | nil => intro acc r h; cases h
  | cons r0 rs ih =>
    intro acc r h
    rw [List.foldl_cons]
    rcases List.mem_cons.mp h with h0 | hmem
    · subst h0
      refine reqFold_preserves env data rs _ _ ?_
      by_cases hm : (evaluateCondition env data r.field r.operator r.value).1 <;>
        simp [requirementStep, hm, GoMap.findVal_insertKV_self]
    · exact ih _ _ hmem

/-- Every exclusion processed by the exclusions loop leaves a breakdown
entry under its field_exclusion key. -/
theorem exclFold_mem (env : EngineEnv) (data : GoMap GoVal) :
    ∀ (excls : List Requirement) (acc : Bool × GoMap ScoreDetail) (x : Requirement),
      x ∈ excls →
      (((excls.foldl (exclusionStep env data) acc).2).findVal (x.field ++ "_exclusion")).isSome := by
  intro excls
  induction excls with
  | nil => intro acc x h; cases h
  | cons x0 xs ih =>
    intro acc x h
    rw [List.foldl_cons]
    rcases List.mem_cons.mp h with h0 | hmem
    · subst h0
      refine exclFold_preserves env data xs _ _ ?_
      by_cases hm : (evaluateCondition env data x.field x.operator x.value).1 <;>
        simp [exclusionStep, hm, GoMap.findVal_insertKV_self]
    · exact ih _ _ hmem

/-- C1: ScoreCompany only qualifies a company when all requirements were
met and the score reached the model minimum; and whenever some requirement
fails or some exclusion holds, the result has requirementsMet false, score
zero and qualified false, while the breakdown still records an entry for
every requirement and every exclusion of the model (for any rule weights,
since the rules are then never applied). -/
theorem scoring_C1 (env : EngineEnv) (data : GoMap GoVal) (model : ICPModel) :
    ((ScoreCompany env data model).qualified = true →
      (ScoreCompany env data model).requirementsMet = true ∧
      model.minScore ≤ (ScoreCompany env data model).score) ∧
    (((∃ r ∈ model.requirements, (evaluateCondition env data r.field r.operator r.value).1 = false) ∨
      (∃ x ∈ model.exclusions, (evaluateCondition env data x.field x.operator x.value).1 = true)) →
      (ScoreCompany env data model).requirementsMet = false ∧
      (ScoreCompany env data model).score = 0 ∧
      (ScoreCompany env data model).qualified = false ∧
      (∀ r ∈ model.requirements,
        (((ScoreCompany env data model).breakdown).findVal (r.field ++ "_requirement")).isSome) ∧
      (∀ x ∈ model.exclusions,
        (((ScoreCompany env data model).breakdown).findVal (x.field ++ "_exclusion")).isSome)) := by
  constructor
  · intro hq
    by_cases h2 : (model.exclusions.foldl (exclusionStep env data)
        (model.requirements.foldl (requirementStep env data) (true, []))).1
    · refine ⟨by simp [ScoreCompany, h2], ?_⟩
      have := hq
      simp only [ScoreCompany, h2, if_true] at this
      simpa [ScoreCompany, h2] using of_decide_eq_true this
    · simp [ScoreCompany, h2] at hq
  · intro hyp
    have h2 : (model.exclusions.foldl (exclusionStep env data)
        (model.requirements.foldl (requirementStep env data) (true, []))).1 = false := by
      rw [exclFold_fst, reqFold_fst]
      rcases hyp with ⟨r, hr, hf⟩ | ⟨x, hx, ht⟩
      · have hall : model.requirements.all
            (fun r => (evaluateCondition env data r.field r.operator r.value).1) = false := by
          apply Bool.eq_false_iff.mpr
          intro hall
          have := List.all_eq_true.mp hall r hr
          simp [hf] at this
        simp [hall]
      · have hall : model.exclusions.all
            (fun x => !(evaluateCondition env data x.field x.operator x.value).1) = false := by
          apply Bool.eq_false_iff.mpr
          intro hall
          have := List.all_eq_true.mp hall x hx
          simp [ht] at this
        simp [hall]
    refine ⟨by simp [ScoreCompany, h2], by simp [ScoreCompany, h2],
      by simp [ScoreCompany, h2], ?_, ?_⟩
    · intro r hr
      have hkey := reqFold_mem env data model.requirements (true, []) r hr
      have := exclFold_preserves env data model.exclusions
        (model.requirements.foldl (requirementStep env data) (true, [])) _ hkey
      simpa [ScoreCompany, h2] using this
    · intro x hx
      have := exclFold_mem env data model.exclusions
        (model.requirements.foldl (requirementStep env data) (true, [])) x hx
      simpa [ScoreCompany, h2] using this

/-- Concrete engine environment for witness evaluation. -/
def envW : EngineEnv :=
  { parseDate := fun _ => none, regexMatch := fun _ _ => false, now := 0 }

/-- Concrete company data: a Pink-tier company. -/
def dataW : GoMap GoVal := [("market_tier", .vStr "OTC Pink")]

/-- Concrete model whose single requirement the witness company fails,
with a rule that would otherwise trigger. -/
def modelW : ICPModel :=
  { id := "m1", name := "w", description := "", version := 1,
    requirements := [⟨"market_tier", "equals", .vStr "Expert Market", "tier"⟩],
    exclusions := [], rules := [⟨"market_tier", "equals", .vStr "OTC Pink", 5, "r"⟩],
    minScore := 3, isActive := true }

/-- Witness for scoring_C1 at a concrete unmet-requirement input. -/
theorem scoring_C1_witness :
    (ScoreCompany envW dataW modelW).requirementsMet = false ∧
    (ScoreCompany envW dataW modelW).score = 0 ∧
    (ScoreCompany envW dataW modelW).qualified = false ∧
    (∀ r ∈ modelW.requirements,
      (((ScoreCompany envW dataW modelW).breakdown).findVal (r.field ++ "_requirement")).isSome) ∧
    (∀ x ∈ modelW.exclusions,
      (((ScoreCompany envW dataW modelW).breakdown).findVal (x.field ++ "_exclusion")).isSome) :=
  (scoring_C1 envW dataW modelW).2
    (Or.inl ⟨⟨"market_tier", "equals", .vStr "Expert Market", "tier"⟩,
      by simp [modelW], by decide⟩)

/-- The date recoverable from a stored date field: a time value, a non-nil
time pointer, or a parsable date string; an absent field, a nil value, an
unparsable string and a value of any other dynamic type all yield none. -/
def dateFieldValue (env : EngineEnv) (data : GoMap GoVal) (f : String) : Option ℚ :=
  match data.findVal f with
  | some (.vTime t) => some t
  | some (.vTimePtr (some t)) => some t
  | some (.vStr s) => env.parseDate s
  | _ => none

/-- evaluateDelinquency holds exactly when no date is recoverable from the
field or the recovered date is more than the threshold months old. -/
theorem evaluateDelinquency_iff (env : EngineEnv) (data : GoMap GoVal)
    (f : String) (m : ℕ) :
    evaluateDelinquency env data f m = true ↔
      dateFieldValue env data f = none ∨
      ∃ t, dateFieldValue env data f = some t ∧ monthsSince env.now t > (m : ℚ) := by
  cases h : data.findVal f with
  | none => simp [evaluateDelinquency, dateFieldValue, h]
  | some v =>
    cases v with
    | vNull => simp [evaluateDelinquency, dateFieldValue, h]
    | vStr s =>
      cases hp : env.parseDate s with
      | none => simp [evaluateDelinquency, dateFieldValue, h, hp]
      | some t => simp [evaluateDelinquency, dateFieldValue, h, hp, decide_eq_true_eq]
    | vTime t => simp [evaluateDelinquency, dateFieldValue, h, decide_eq_true_eq]
    | vTimePtr o =>
      cases o <;> simp [evaluateDelinquency, dateFieldValue, h, decide_eq_true_eq]
    | vInt n => simp [evaluateDelinquency, dateFieldValue, h]
    | vFloat q => simp [evaluateDelinquency, dateFieldValue, h]
    | vBool b => simp [evaluateDelinquency, dateFieldValue, h]
    | vList l => simp [evaluateDelinquency, dateFieldValue, h]

/-- C7: the computed delinquency fields ignore the supplied operator and
literal value, evaluate the named date field against thresholds of 15, 6
and 12 (30.44-day) months respectively, and hold exactly when that field is
absent, nil, unparsable, or older than the threshold. -/
theorem scoring_C7 (env : EngineEnv) (data : GoMap GoVal) :
    (∀ op val op' val',
      evaluateCondition env data "delinquent_10k" op val
        = evaluateCondition env data "delinquent_10k" op' val' ∧
      evaluateCondition env data "delinquent_10q" op val
        = evaluateCondition env data "delinquent_10q" op' val' ∧
      evaluateCondition env data "no_recent_activity" op val
        = evaluateCondition env data "no_recent_activity" op' val') ∧
    (∀ op val,
      (evaluateCondition env data "delinquent_10k" op val).1
        = evaluateDelinquency env data "last_10k_date" 15 ∧
      (evaluateCondition env data "delinquent_10q" op val).1
        = evaluateDelinquency env data "last_10q_date" 6 ∧
      (evaluateCondition env data "no_recent_activity" op val).1
        = evaluateDelinquency env data "last_filing_date" 12) ∧
    ((evaluateDelinquency env data "last_10k_date" 15 = true ↔
      dateFieldValue env data "last_10k_date" = none ∨
      ∃ t, dateFieldValue env data "last_10k_date" = some t ∧
        monthsSince env.now t > ((15 : ℕ) : ℚ)) ∧
     (evaluateDelinquency env data "last_10q_date" 6 = true ↔
      dateFieldValue env data "last_10q_date" = none ∨
      ∃ t, dateFieldValue env data "last_10q_date" = some t ∧
        monthsSince env.now t > ((6 : ℕ) : ℚ)) ∧
     (evaluateDelinquency env data "last_filing_date" 12 = true ↔
      dateFieldValue env data "last_filing_date" = none ∨
      ∃ t, dateFieldValue env data "last_filing_date" = some t ∧
        monthsSince env.now t > ((12 : ℕ) : ℚ))) :=
  ⟨fun _ _ _ _ => ⟨rfl, rfl, rfl⟩,
   fun _ _ => ⟨rfl, rfl, rfl⟩,
   evaluateDelinquency_iff env data "last_10k_date" 15,
   evaluateDelinquency_iff env data "last_10q_date" 6,
   evaluateDelinquency_iff env data "last_filing_date" 12⟩

/-! ## Health monitor (internal/scraper/health_monitor.go)

Timestamps are rational hours (so time.Hour is 1); the int64 counters only
increment or reset and are modelled as naturals; the Go zero time is
modelled as Option none. -/

/-- A single recorded failure event. -/
structure FailureRecord where
  timestamp : ℚ
  ticker : String
  errMsg : String
  url : String
deriving Repr, DecidableEq

/-- The monitor's mutable state. -/
structure MonitorState where
  totalRequests : ℕ
  successfulRequests : ℕ
  failedRequests : ℕ
  consecutiveFailures : ℕ
  lastFailureTime : Option ℚ
  lastSuccessTime : Option ℚ
  recentFailures : List FailureRecord

/-- Ring capacity: keep the last 50 failures. -/
def maxRecentFailures : ℕ := 50

/-- Failure-rate alert threshold (20 percent). -/
def failureThreshold : ℚ := 1 / 5

/-- Consecutive-failure alert threshold. -/
def consecutiveThreshold : ℕ := 5

/-- NewHealthMonitor: all counters zero, no timestamps, empty ring. -/
def initMonitor : MonitorState :=
  { totalRequests := 0, successfulRequests := 0, failedRequests := 0,
    consecutiveFailures := 0, lastFailureTime := none, lastSuccessTime := none,
    recentFailures := [] }

/-- RecordSuccess: bump total and success counters, clear the consecutive
failure count, stamp the success time. -/
def recordSuccess (s : MonitorState) (now : ℚ) : MonitorState :=
  { s with totalRequests := s.totalRequests + 1,
           successfulRequests := s.successfulRequests + 1,
           consecutiveFailures := 0,
           lastSuccessTime := some now }

/-- RecordFailure: bump total, failure and consecutive counters, stamp the
failure time, append to the ring and evict the oldest entry past
capacity. -/
def recordFailure (s : MonitorState) (now : ℚ) (ticker errMsg url : String) : MonitorState :=
  let appended := s.recentFailures ++ [⟨now, ticker, errMsg, url⟩]
  { s with totalRequests := s.totalRequests + 1,
           failedRequests := s.failedRequests + 1,
           consecutiveFailures := s.consecutiveFailures + 1,
           lastFailureTime := some now,
           recentFailures :=
             if appended.length > maxRecentFailures then appended.drop 1 else appended }

/-- Reset: zero everything and empty the ring. -/
def resetMonitor (_s : MonitorState) : MonitorState := initMonitor

/-- One recorded call on the monitor, with the instant it happens. -/
inductive MonitorOp where
  | success (now : ℚ) (ticker : String)
  | failure (now : ℚ) (ticker errMsg url : String)
  | reset

/-- Apply one call to the monitor state. -/
def applyOp (s : MonitorState) : MonitorOp → MonitorState
  | .success now _ => recordSuccess s now
  | .failure now t e u => recordFailure s now t e u
  | .reset => resetMonitor s

/-- Run a sequence of calls from a fresh monitor. -/
def runOps (ops : List MonitorOp) : MonitorState :=
  ops.foldl applyOp initMonitor

/-- The health verdict and reported counters computed by GetHealthStatus
(issue/recommendation strings are tracked by issue keys; the pattern
analysis over the ring appends issues but never changes the verdict). -/
structure HealthStatus where
  isHealthy : Bool
  totalRequests : ℕ
  successfulRequests : ℕ
  failedRequests : ℕ
  successRate : ℚ
  consecutiveFailures : ℕ
  lastFailureTime : Option ℚ
  lastSuccessTime : Option ℚ
  recentFailures : List FailureRecord

/-- GetHealthStatus: the success rate is successes over total (1 when no
requests yet) and the verdict is unhealthy when the failure rate is high
with at least 10 requests, or there are 5 or more consecutive failures, or
the last success is more than an hour old. -/
def getHealthStatus (s : MonitorState) (now : ℚ) : HealthStatus :=
  let successRate : ℚ :=
    if s.totalRequests > 0 then (s.successfulRequests : ℚ) / (s.totalRequests : ℚ) else 1
  let badRate := decide (s.totalRequests ≥ 10) && decide (successRate < 1 - failureThreshold)
  let badConsecutive := decide (s.consecutiveFailures ≥ consecutiveThreshold)
  let stale :=
    match s.lastSuccessTime with
    | some t => decide (now - t > 1)
    | none => false
  { isHealthy := !(badRate || badConsecutive || stale),
    totalRequests := s.totalRequests,
    successfulRequests := s.successfulRequests,
    failedRequests := s.failedRequests,
    successRate := successRate,
    consecutiveFailures := s.consecutiveFailures,
    lastFailureTime := s.lastFailureTime,
    lastSuccessTime := s.lastSuccessTime,
    recentFailures := s.recentFailures }

/-- C3: after any call sequence, the reported success rate is successes
over total (exactly 1 when total is 0), and the verdict is unhealthy
exactly when the total reached 10 with a success rate under 0.8, or there
are at least 5 consecutive failures, or a last-success stamp exists more
than one hour before now. -/
theorem monitor_C3 (ops : List MonitorOp) (now : ℚ) :
    ((getHealthStatus (runOps ops) now).totalRequests = 0 →
      (getHealthStatus (runOps ops) now).successRate = 1) ∧
    ((getHealthStatus (runOps ops) now).totalRequests ≠ 0 →
      (getHealthStatus (runOps ops) now).successRate =
        ((getHealthStatus (runOps ops) now).successfulRequests : ℚ) /
          ((getHealthStatus (runOps ops) now).totalRequests : ℚ)) ∧
    ((getHealthStatus (runOps ops) now).isHealthy = false ↔
      ((getHealthStatus (runOps ops) now).totalRequests ≥ 10 ∧
        (getHealthStatus (runOps ops) now).successRate < 4 / 5) ∨
      (getHealthStatus (runOps ops) now).consecutiveFailures ≥ 5 ∨
      (∃ t, (runOps ops).lastSuccessTime = some t ∧ now - t > 1)) := by
  refine ⟨?_, ?_, ?_⟩
  · intro h
    simp only [getHealthStatus] at h ⊢
    simp [h]
  · intro h
    simp only [getHealthStatus] at h ⊢
    simp [Nat.pos_of_ne_zero h]
  · have h45 : (1 : ℚ) - failureThreshold = 4 / 5 := by norm_num [failureThreshold]
    cases hls : (runOps ops).lastSuccessTime with
    | none =>
      simp only [getHealthStatus, hls, h45, consecutiveThreshold,
        Bool.not_eq_false', Bool.or_eq_true, Bool.and_eq_true,
        decide_eq_true_eq, or_assoc]
      simp
    | some t =>
      simp only [getHealthStatus, hls, h45, consecutiveThreshold,
        Bool.not_eq_false', Bool.or_eq_true, Bool.and_eq_true,
        decide_eq_true_eq, or_assoc]
      simp

/-- Concrete call sequence: five straight failures at time zero. -/
def opsW : List MonitorOp := List.replicate 5 (.failure 0 "TICK" "err" "u")

/-- Witness for monitor_C3: five straight failures make the monitor
unhealthy and its success rate the reported quotient. -/
theorem monitor_C3_witness :
    (getHealthStatus (runOps opsW) 0).successRate =
      ((getHealthStatus (runOps opsW) 0).successfulRequests : ℚ) /
        ((getHealthStatus (runOps opsW) 0).totalRequests : ℚ) ∧
    (getHealthStatus (runOps opsW) 0).isHealthy = false :=
  ⟨(monitor_C3 opsW 0).2.1 (by decide),
   ((monitor_C3 opsW 0).2.2).mpr (Or.inr (Or.inl (by decide)))⟩

/-- The last n elements of a list, in order. -/
def lastN {α : Type} (n : ℕ) (l : List α) : List α :=
  l.drop (l.length - n)

/-- All failures recorded since the most recent reset, in arrival order. -/
def failuresSinceReset (ops : List MonitorOp) : List FailureRecord :=
  ops.foldl
    (fun acc op =>
      match op with
      | .success _ _ => acc
      | .failure now t e u => acc ++ [⟨now, t, e, u⟩]
      | .reset => [])
    []

theorem lastN_length {α : Type} (n : ℕ) (l : List α) :
    (lastN n l).length = min n l.length := by
  simp [lastN]
  omega

/-- Appending one record to the ring and evicting past capacity keeps the
ring equal to the last 50 entries of the full log. -/
theorem ringStep (log : List FailureRecord) (r : FailureRecord) :
    (if (lastN maxRecentFailures log ++ [r]).length > maxRecentFailures
     then (lastN maxRecentFailures log ++ [r]).drop 1
     else lastN maxRecentFailures log ++ [r])
      = lastN maxRecentFailures (log ++ [r]) := by
  have hM : maxRecentFailures = 50 := rfl
  by_cases h : log.length < maxRecentFailures
  · have hxs : lastN maxRecentFailures log = log := by
      simp [lastN, Nat.sub_eq_zero_of_le (le_of_lt h)]
    rw [hxs]
    have hcond : ¬((log ++ [r]).length > maxRecentFailures) := by
      simp only [List.length_append, List.length_cons, List.length_nil]
      omega
    rw [if_neg hcond]
    have hdrop' : (log.length + 1) - maxRecentFailures = 0 := by omega
    simp [lastN, hdrop']
  · push_neg at h
    have hlen : (lastN maxRecentFailures log).length = maxRecentFailures := by
      rw [lastN_length]; omega
    have hcond : (lastN maxRecentFailures log ++ [r]).length > maxRecentFailures := by
      simp [hlen]
    rw [if_pos hcond]
    have h1 : (1 : ℕ) ≤ (lastN maxRecentFailures log).length := by omega
    rw [List.drop_append_of_le_length h1]
    have h2 : (log.length + 1) - maxRecentFailures ≤ log.length := by omega
    unfold lastN
    rw [List.length_append]
    simp only [List.length_cons, List.length_nil]
    rw [List.drop_append_of_le_length (by omega), List.drop_drop]
    congr 2
    omega

/-- The monitor ring always equals the last 50 failures recorded since the
most recent reset. -/
theorem ring_eq_lastN (ops : List MonitorOp) :
    (runOps ops).recentFailures = lastN maxRecentFailures (failuresSinceReset ops) := by
  induction ops using List.reverseRecOn with
  | nil => simp [runOps, failuresSinceReset, lastN, initMonitor]
  | append_singleton ops op ih =>
    cases op with
    | success now t =>
      simpa [runOps, failuresSinceReset, List.foldl_append, applyOp, recordSuccess]
        using ih
    | failure now t e u =>
      simp only [runOps, failuresSinceReset, List.foldl_append, List.foldl_cons,
        List.foldl_nil, applyOp, recordFailure] at ih ⊢
      rw [ih]
      exact ringStep _ _
    | reset =>
      simp [runOps, failuresSinceReset, List.foldl_append, applyOp, resetMonitor,
        initMonitor, lastN]

/-- C8: after any call sequence the failure ring holds at most 50 records,
and it is exactly the most recent (at most 50) failures recorded since the
last reset, in arrival order — appends evict the oldest record first. -/
theorem monitor_C8 (ops : List MonitorOp) :
    (runOps ops).recentFailures.length ≤ 50 ∧
    (runOps ops).recentFailures = lastN 50 (failuresSinceReset ops) := by
  have h := ring_eq_lastN ops
  refine ⟨?_, h⟩
  rw [h, lastN_length]
  exact min_le_left _ _

/-! ## Page fetch clients (internal/scraper/oxylabs_client.go and
internal/scraper/client.go)

External effects are supplied by an environment: JSON marshalling of the
request (keyed by URL or URL list), HTTP request construction, the
transport call (keyed by the request body, covering connection errors,
body-read errors and a status/body response), envelope decoding and HTML
parsing. A fetch call is then a deterministic function of its
environment. -/

/-- A parsed HTML document (goquery.Document), identified by its source
content. -/
structure Doc where
  content : String
deriving Repr, DecidableEq

/-- A single result inside an OxyLabs response envelope. -/
structure OxyResult where
  content : String
  statusCode : ℕ
  url : String
deriving Repr, DecidableEq

/-- Outcome of one HTTP transport call: a connection-level error, a
response whose body could not be read, or a status code with a body. -/
inductive TransportOutcome where
  | transportErr (msg : String)
  | readErr (status : ℕ) (msg : String)
  | ok (status : ℕ) (body : String)

/-- Environment of the OxyLabs client. -/
structure FetchEnv where
  marshalSingle : String → Option String
  marshalBatch : List String → Option String
  newRequestOk : Bool
  transport : String → TransportOutcome
  decodeEnvelope : String → Option (List OxyResult)
  parseHTML : String → Option Doc

/-- Typed fetch errors, one per failure layer of the fetch pipeline. -/
inductive FetchErr where
  | ctxCancelled
  | marshalErr
  | requestErr
  | transportErr (msg : String)
  | readErr (msg : String)
  | badStatus (status : ℕ) (body : String)
  | decodeErr
  | noResults
  | pageStatus (status : ℕ)
  | parseErr
deriving Repr, DecidableEq

/-- Observable events of one fetch call: rate-limiter permit acquisition
and issuing the HTTP request. -/
inductive FetchEvent where
  | acquirePermit
  | issueRequest (body : String)
deriving Repr, DecidableEq

/-- OxyLabsClient.Get with its event trace: marshal the render request,
build the HTTP request, call the transport, read the body, require proxy
status 200, decode the envelope, require a first result with page status
200, and parse its content. No rate-limiter permit is ever acquired. -/
def oxyGetTr (env : FetchEnv) (url : String) : Except FetchErr Doc × List FetchEvent :=
  match env.marshalSingle url with
  | none => (.error .marshalErr, [])
  | some body =>
    if !env.newRequestOk then (.error .requestErr, [])
    else
      let events := [FetchEvent.issueRequest body]
      match env.transport body with
      | .transportErr m => (.error (.transportErr m), events)
      | .readErr _ m => (.error (.readErr m), events)
      | .ok status respBody =>
        if status ≠ 200 then (.error (.badStatus status respBody), events)
        else
          match env.decodeEnvelope respBody with
          | none => (.error .decodeErr, events)
          | some [] => (.error .noResults, events)
          | some (r :: _) =>
            if r.statusCode ≠ 200 then (.error (.pageStatus r.statusCode), events)
            else
              match env.parseHTML r.content with
              | none => (.error .parseErr, events)
              | some doc => (.ok doc, events)

/-- OxyLabsClient.Get, result only. -/
def oxyGet (env : FetchEnv) (url : String) : Except FetchErr Doc :=
  (oxyGetTr env url).1

/-- Environment of the rate-limited direct client. -/
structure DirectEnv where
  ctxCancelled : Bool
  newRequestOk : String → Bool
  transport : String → TransportOutcome
  parseHTML : String → Option Doc

/-- Client.Get of the rate-limited direct client, with its event trace:
wait on the rate limiter (or observe cancellation), build the request,
issue it, require status 200 and parse the body. -/
def clientGetTr (env : DirectEnv) (url : String) : Except FetchErr Doc × List FetchEvent :=
  if env.ctxCancelled then (.error .ctxCancelled, [])
  else
    let events0 := [FetchEvent.acquirePermit]
    if !env.newRequestOk url then (.error .requestErr, events0)
    else
      let events := events0 ++ [FetchEvent.issueRequest url]
      match env.transport url with
      | .transportErr m => (.error (.transportErr m), events)
      | .readErr status _ =>
        if status ≠ 200 then (.error (.badStatus status ""), events)
        else (.error .parseErr, events)
      | .ok status body =>
        if status ≠ 200 then (.error (.badStatus status body), events)
        else
          match env.parseHTML body with
          | none => (.error .parseErr, events)
          | some d => (.ok d, events)

/-- One step of the batch fallback loop: a single fetch whose document or
error is recorded under its URL. -/
def fallbackStep (env : FetchEnv) (acc : GoMap Doc × GoMap FetchErr) (url : String) :
    GoMap Doc × GoMap FetchErr :=
  match oxyGet env url with
  | .ok doc => (acc.1.insertKV url doc, acc.2)
  | .error e => (acc.1, acc.2.insertKV url e)

/-- The fallback taken on every batch-level failure: sequential single
fetches over the URLs, from empty result maps. -/
def fallbackLoop (env : FetchEnv) (urls : List String) : GoMap Doc × GoMap FetchErr :=
  urls.foldl (fallbackStep env) ([], [])

/-- Processing of a decoded batch envelope: results are paired with the
requested URLs by position (iteration stops when either list runs out);
each entry is validated individually by page status and HTML parse. -/
def processResults (env : FetchEnv) :
    List String → List OxyResult → GoMap Doc × GoMap FetchErr → GoMap Doc × GoMap FetchErr
  | _, [], acc => acc
  | [], _ :: _, acc => acc
  | url :: us, r :: rs, acc =>
    if r.statusCode ≠ 200 then
      processResults env us rs (acc.1, acc.2.insertKV url (.pageStatus r.statusCode))
    else
      match env.parseHTML r.content with
      | none => processResults env us rs (acc.1, acc.2.insertKV url .parseErr)
      | some doc => processResults env us rs (acc.1.insertKV url doc, acc.2)

/-- OxyLabsClient.GetBatch: one multi-URL request; any batch-level failure
(marshalling, request construction, transport, body read, envelope decode)
degrades to the sequential per-URL fallback; a decoded envelope is
processed positionally. The batch HTTP status code is not examined. -/
def GetBatch (env : FetchEnv) (urls : List String) : GoMap Doc × GoMap FetchErr :=
  match env.marshalBatch urls with
  | none => fallbackLoop env urls
  | some body =>
    if !env.newRequestOk then fallbackLoop env urls
    else
      match env.transport body with
      | .transportErr _ => fallbackLoop env urls
      | .readErr _ _ => fallbackLoop env urls
      | .ok _ respBody =>
        match env.decodeEnvelope respBody with
        | none => fallbackLoop env urls
        | some results => processResults env urls results ([], [])

/-- The per-URL success/error split obtained by calling the single fetch
on each URL individually, as the fallback contract in the spec describes
it. -/
def singleFetchSplit (env : FetchEnv) : List String → GoMap Doc × GoMap FetchErr
  | [] => ([], [])
  | u :: us =>
    let rest := singleFetchSplit env us
    match oxyGet env u with
    | .ok d => ((u, d) :: rest.1, rest.2)
    | .error e => (rest.1, (u, e) :: rest.2)

/-- The error of a fallible result, when there is one. -/
def errToOption {ε α : Type} : Except ε α → Option ε
  | .error e => some e
  | .ok _ => none

/-- The value of a fallible result, when there is one. -/
def okToOption {ε α : Type} : Except ε α → Option α
  | .ok a => some a
  | .error _ => none

theorem GoMap.findVal_cons {α : Type} (a : String) (b : α) (m : GoMap α) (k : String) :
    GoMap.findVal ((a, b) :: m) k = if a = k then some b else m.findVal k := by
  by_cases h : a = k
  · simp [GoMap.findVal, List.find?, h]
  · have hb : (a == k) = false := beq_eq_false_iff_ne.mpr h
    simp [GoMap.findVal, List.find?, hb, h]

/-- Document side of the spec split: a URL maps to a document exactly when
it occurs in the list and its individual fetch succeeds. -/
theorem singleFetchSplit_docs (env : FetchEnv) :
    ∀ (urls : List String) (k : String),
      ((singleFetchSplit env urls).1).findVal k =
        if k ∈ urls then okToOption (oxyGet env k) else none := by
  intro urls
  induction urls with
  | nil => intro k; simp [singleFetchSplit, GoMap.findVal]
  | cons u us ih =>
    intro k
    by_cases hk : u = k
    · subst hk
      cases ho : oxyGet env u with
      | ok d => simp [singleFetchSplit, ho, GoMap.findVal_cons, okToOption]
      | error e => simp [singleFetchSplit, ho, ih, okToOption]
    · cases ho : oxyGet env u with
      | ok d => simp [singleFetchSplit, ho, GoMap.findVal_cons, hk, Ne.symm hk, ih]
      | error e => simp [singleFetchSplit, ho, ih, hk, Ne.symm hk]

/-- Error side of the spec split. -/
theorem singleFetchSplit_errs (env : FetchEnv) :
    ∀ (urls : List String) (k : String),
      ((singleFetchSplit env urls).2).findVal k =
        if k ∈ urls then errToOption (oxyGet env k) else none := by
  intro urls
  induction urls with
  | nil => intro k; simp [singleFetchSplit, GoMap.findVal]
  | cons u us ih =>
    intro k
    by_cases hk : u = k
    · subst hk
      cases ho : oxyGet env u with
      | ok d => simp [singleFetchSplit, ho, ih, errToOption]
      | error e => simp [singleFetchSplit, ho, GoMap.findVal_cons, errToOption]
    · cases ho : oxyGet env u with
      | ok d => simp [singleFetchSplit, ho, ih, hk, Ne.symm hk]
      | error e => simp [singleFetchSplit, ho, GoMap.findVal_cons, hk, Ne.symm hk, ih]

/-- Document side of the fallback loop, for any starting accumulator. -/
theorem fallbackFold_docs (env : FetchEnv) :
    ∀ (urls : List String) (acc : GoMap Doc × GoMap FetchErr) (k : String),
      ((urls.foldl (fallbackStep env) acc).1).findVal k =
        if k ∈ urls ∧ (okToOption (oxyGet env k)).isSome then okToOption (oxyGet env k)
        else acc.1.findVal k := by
  intro urls
  induction urls with
  | nil => intro acc k; simp
  | cons u us ih =>
    intro acc k
    rw [List.foldl_cons, ih]
    by_cases hk : k = u
    · subst hk
      cases ho : oxyGet env k with
      | ok d =>
        by_cases hmem : k ∈ us <;>
          simp [hmem, ho, okToOption, fallbackStep, GoMap.findVal_insertKV_self]
      | error e => simp [ho, okToOption, fallbackStep]
    · have hstep : ((fallbackStep env acc u).1).findVal k = acc.1.findVal k := by
        cases ho : oxyGet env u with
        | ok d => simp [fallbackStep, ho, GoMap.findVal_insertKV_ne _ _ _ _ hk]
        | error e => simp [fallbackStep, ho]
      rw [hstep]
      simp [hk]

/-- Error side of the fallback loop, for any starting accumulator. -/
theorem fallbackFold_errs (env : FetchEnv) :
    ∀ (urls : List String) (acc : GoMap Doc × GoMap FetchErr) (k : String),
      ((urls.foldl (fallbackStep env) acc).2).findVal k =
        if k ∈ urls ∧ (errToOption (oxyGet env k)).isSome then errToOption (oxyGet env k)
        else acc.2.findVal k := by
  intro urls
  induction urls with
  | nil => intro acc k; simp
  | cons u us ih =>
    intro acc k
    rw [List.foldl_cons, ih]
    by_cases hk : k = u
    · subst hk
      cases ho : oxyGet env k with
      | ok d => simp [ho, errToOption, fallbackStep]
      | error e =>
        by_cases hmem : k ∈ us <;>
          simp [hmem, ho, errToOption, fallbackStep, GoMap.findVal_insertKV_self]
    · have hstep : ((fallbackStep env acc u).2).findVal k = acc.2.findVal k := by
        cases ho : oxyGet env u with
        | ok d => simp [fallbackStep, ho]
        | error e => simp [fallbackStep, ho, GoMap.findVal_insertKV_ne _ _ _ _ hk]
      rw [hstep]
      simp [hk]

/-- A batch-level failure of GetBatch: the request-body marshalling, the
HTTP request construction, the transport call, the body read, or the
envelope decode fails. -/
def batchLevelFailure (env : FetchEnv) (urls : List String) : Prop :=
  env.marshalBatch urls = none ∨
  ∃ body, env.marshalBatch urls = some body ∧
    (env.newRequestOk = false ∨
     (∃ m, env.transport body = .transportErr m) ∨
     (∃ s m, env.transport body = .readErr s m) ∨
     (∃ s rb, env.transport body = .ok s rb ∧ env.decodeEnvelope rb = none))

/-- Every batch-level failure sends GetBatch into the sequential per-URL
fallback. -/
theorem GetBatch_fallback_of_failure (env : FetchEnv) (urls : List String)
    (h : batchLevelFailure env urls) : GetBatch env urls = fallbackLoop env urls := by
  rcases h with hm | ⟨body, hb, hrest⟩
  · simp [GetBatch, hm]
  · rcases hrest with hreq | ⟨m, ht⟩ | ⟨s, m, ht⟩ | ⟨s, rb, ht, hd⟩
    · simp [GetBatch, hb, hreq]
    · by_cases hr : env.newRequestOk <;> simp [GetBatch, hb, ht, hr]
    · by_cases hr : env.newRequestOk <;> simp [GetBatch, hb, ht, hr]
    · by_cases hr : env.newRequestOk <;> simp [GetBatch, hb, ht, hd, hr]

/-- C2: whenever the batch fetch fails at the batch level, GetBatch
degrades to sequential single fetches and returns, URL by URL, exactly the
success/error split that calling the single fetch on each URL individually
would return. -/
theorem fetch_C2 (env : FetchEnv) (urls : List String)
    (h : batchLevelFailure env urls) :
    ∀ u, ((GetBatch env urls).1).findVal u = ((singleFetchSplit env urls).1).findVal u ∧
         ((GetBatch env urls).2).findVal u = ((singleFetchSplit env urls).2).findVal u := by
  intro u
  rw [GetBatch_fallback_of_failure env urls h]
  constructor
  · rw [fallbackLoop, fallbackFold_docs, singleFetchSplit_docs]
    by_cases hk : u ∈ urls
    · cases ho : oxyGet env u with
      | ok d => simp [hk, ho, okToOption]
      | error e => simp [hk, ho, okToOption, GoMap.findVal]
    · simp [hk, GoMap.findVal]
  · rw [fallbackLoop, fallbackFold_errs, singleFetchSplit_errs]
    by_cases hk : u ∈ urls
    · cases ho : oxyGet env u with
      | ok d => simp [hk, ho, errToOption, GoMap.findVal]
      | error e => simp [hk, ho, errToOption]
    · simp [hk, GoMap.findVal]

/-- Concrete fetch environment whose batch response body cannot be decoded
while every single fetch succeeds. -/
def envB : FetchEnv :=
  { marshalSingle := fun u => some ("single:" ++ u),
    marshalBatch := fun _ => some "batch",
    newRequestOk := true,
    transport := fun b => if b == "batch" then .ok 200 "garbled" else .ok 200 ("resp:" ++ b),
    decodeEnvelope := fun s => if s == "garbled" then none else some [⟨"html", 200, ""⟩],
    parseHTML := fun c => some ⟨c⟩ }

/-- Witness for fetch_C2 at a malformed batch envelope. -/
theorem fetch_C2_witness :
    batchLevelFailure envB ["u1", "u2"] ∧
    ((GetBatch envB ["u1", "u2"]).1).findVal "u1"
      = ((singleFetchSplit envB ["u1", "u2"]).1).findVal "u1" ∧
    ((GetBatch envB ["u1", "u2"]).2).findVal "u1"
      = ((singleFetchSplit envB ["u1", "u2"]).2).findVal "u1" := by
  have h : batchLevelFailure envB ["u1", "u2"] :=
    Or.inr ⟨"batch", rfl, Or.inr (Or.inr (Or.inr ⟨200, "garbled", rfl, rfl⟩))⟩
  exact ⟨h, fetch_C2 envB ["u1", "u2"] h "u1"⟩

/-- The event trace of an OxyLabs single fetch is empty or a lone issued
request: the client never touches a rate limiter. -/
theorem oxyGetTr_trace (env : FetchEnv) (url : String) :
    (oxyGetTr env url).2 = [] ∨
    ∃ b, (oxyGetTr env url).2 = [FetchEvent.issueRequest b] := by
  cases hm : env.marshalSingle url with
  | none => left; simp [oxyGetTr, hm]
  | some body =>
    cases hr : env.newRequestOk with
    | false => left; simp [oxyGetTr, hm, hr]
    | true =>
      right
      refine ⟨body, ?_⟩
      cases ht : env.transport body with
      | transportErr m => simp [oxyGetTr, hm, hr, ht]
      | readErr s m => simp [oxyGetTr, hm, hr, ht]
      | ok s rb =>
        by_cases hs : s = 200
        · subst hs
          cases hd : env.decodeEnvelope rb with
          | none => simp [oxyGetTr, hm, hr, ht, hd]
          | some results =>
            cases results with
            | nil => simp [oxyGetTr, hm, hr, ht, hd]
            | cons r rest =>
              by_cases hps : r.statusCode = 200
              · cases hp : env.parseHTML r.content with
                | none => simp [oxyGetTr, hm, hr, ht, hd, hps, hp]
                | some d => simp [oxyGetTr, hm, hr, ht, hd, hps, hp]
              · simp [oxyGetTr, hm, hr, ht, hd, hps]
        · simp [oxyGetTr, hm, hr, ht, hs]

/-- Concrete environment for a successful OxyLabs fetch. -/
def envOxy6 : FetchEnv :=
  { marshalSingle := fun _ => some "req",
    marshalBatch := fun _ => some "breq",
    newRequestOk := true,
    transport := fun _ => .ok 200 "respbody",
    decodeEnvelope := fun _ => some [⟨"html", 200, "u"⟩],
    parseHTML := fun c => some ⟨c⟩ }

/-- Counterexample to C6 as stated: a single-page fetch of the OxyLabs
client (the fetch used by the orchestrator) issues its HTTP request and
returns content without any rate-limiter permit having been acquired. -/
theorem fetch_C6_counterexample :
    (oxyGetTr envOxy6 "u").1 = .ok ⟨"html"⟩ ∧
    FetchEvent.issueRequest "req" ∈ (oxyGetTr envOxy6 "u").2 ∧
    FetchEvent.acquirePermit ∉ (oxyGetTr envOxy6 "u").2 := by
  refine ⟨rfl, ?_, ?_⟩ <;> decide

/-- C6 as amended: the rate-limited direct client acquires its permit
before issuing any request and returns content only on transport status
200 plus a successful parse; the OxyLabs fetch acquires no permit, and
returns content exactly when the proxy transport answers 200 and the first
decoded result carries page status 200 and parsable content — every other
outcome at any layer is a typed fetch error. -/
theorem fetch_C6 (denv : DirectEnv) (env : FetchEnv) (url : String) :
    (∀ b, FetchEvent.issueRequest b ∈ (clientGetTr denv url).2 →
      (clientGetTr denv url).2 = [FetchEvent.acquirePermit, FetchEvent.issueRequest url]) ∧
    (∀ d, (clientGetTr denv url).1 = .ok d ↔
      (denv.ctxCancelled = false ∧ denv.newRequestOk url = true ∧
       ∃ body, denv.transport url = .ok 200 body ∧ denv.parseHTML body = some d)) ∧
    (∀ d, oxyGet env url = .ok d ↔
      ∃ body rb r rest,
        env.marshalSingle url = some body ∧ env.newRequestOk = true ∧
        env.transport body = .ok 200 rb ∧
        env.decodeEnvelope rb = some (r :: rest) ∧ r.statusCode = 200 ∧
        env.parseHTML r.content = some d) ∧
    FetchEvent.acquirePermit ∉ (oxyGetTr env url).2 := by
  refine ⟨?_, ?_, ?_, ?_⟩
  · intro b hb
    cases hc : denv.ctxCancelled with
    | true => simp [clientGetTr, hc] at hb
    | false =>
      cases hr : denv.newRequestOk url with
      | false => simp [clientGetTr, hc, hr] at hb
      | true =>
        cases ht : denv.transport url with
        | transportErr m => simp [clientGetTr, hc, hr, ht]
        | readErr s m =>
          by_cases hs : s = 200 <;> simp [clientGetTr, hc, hr, ht, hs]
        | ok s body =>
          by_cases hs : s = 200
          · subst hs
            cases hp : denv.parseHTML body with
            | none => simp [clientGetTr, hc, hr, ht, hp]
            | some d => simp [clientGetTr, hc, hr, ht, hp]
          · simp [clientGetTr, hc, hr, ht, hs]
  · intro d
    cases hc : denv.ctxCancelled with
    | true => simp [clientGetTr, hc]
    | false =>
      cases hr : denv.newRequestOk url with
      | false => simp [clientGetTr, hc, hr]
      | true =>
        cases ht : denv.transport url with
        | transportErr m => simp [clientGetTr, hc, hr, ht]
        | readErr s m =>
          by_cases hs : s = 200
          · subst hs; simp [clientGetTr, hc, hr, ht]
          · simp [clientGetTr, hc, hr, ht, hs]
        | ok s body =>
          by_cases hs : s = 200
          · subst hs
            cases hp : denv.parseHTML body with
            | none => simp [clientGetTr, hc, hr, ht, hp]
            | some d' => simp [clientGetTr, hc, hr, ht, hp, eq_comm]
          · simp [clientGetTr, hc, hr, ht, hs]
  · intro d
    cases hm : env.marshalSingle url with
    | none => simp [oxyGet, oxyGetTr, hm]
    | some body =>
      cases hr : env.newRequestOk with
      | false => simp [oxyGet, oxyGetTr, hm, hr]
      | true =>
        cases ht : env.transport body with
        | transportErr m => simp [oxyGet, oxyGetTr, hm, hr, ht]
        | readErr s m => simp [oxyGet, oxyGetTr, hm, hr, ht]
        | ok s rb =>
          by_cases hs : s = 200
          · subst hs
            cases hd : env.decodeEnvelope rb with
            | none => simp [oxyGet, oxyGetTr, hm, hr, ht, hd]
            | some results =>
              cases results with
              | nil => simp [oxyGet, oxyGetTr, hm, hr, ht, hd]
              | cons r rest =>
                by_cases hps : r.statusCode = 200
                · cases hp : env.parseHTML r.content with
                  | none => simp [oxyGet, oxyGetTr, hm, hr, ht, hd, hps, hp]
                  | some d' =>
                    simp [oxyGet, oxyGetTr, hm, hr, ht, hd, hps, hp, eq_comm]
                · simp [oxyGet, oxyGetTr, hm, hr, ht, hd, hps]
          · simp [oxyGet, oxyGetTr, hm, hr, ht, hs]
  · rcases oxyGetTr_trace env url with h | ⟨b, h⟩ <;> simp [h]

/-- Concrete direct-client environment with every stage succeeding. -/
def denvW : DirectEnv :=
  { ctxCancelled := false, newRequestOk := fun _ => true,
    transport := fun _ => .ok 200 "page", parseHTML := fun c => some ⟨c⟩ }

/-- Witness for fetch_C6: a concrete direct fetch acquires its permit
before issuing, and a concrete OxyLabs fetch never acquires one. -/
theorem fetch_C6_witness :
    (clientGetTr denvW "w").2 = [FetchEvent.acquirePermit, FetchEvent.issueRequest "w"] ∧
    FetchEvent.acquirePermit ∉ (oxyGetTr envOxy6 "u").2 :=
  ⟨(fetch_C6 denvW envOxy6 "w").1 "w" (by decide),
   (fetch_C6 denvW envOxy6 "u").2.2.2⟩

/-- Concrete environment: a non-200 batch response whose body still decodes
to an empty envelope. -/
def envC9 : FetchEnv :=
  { marshalSingle := fun _ => some "s",
    marshalBatch := fun _ => some "b",
    newRequestOk := true,
    transport := fun _ => .ok 503 "emptyenv",
    decodeEnvelope := fun _ => some [],
    parseHTML := fun c => some ⟨c⟩ }

/-- Concrete environment: a decoded batch envelope holding one result for
two requested URLs. -/
def envC9b : FetchEnv :=
  { marshalSingle := fun _ => some "s",
    marshalBatch := fun _ => some "b",
    newRequestOk := true,
    transport := fun _ => .ok 200 "one",
    decodeEnvelope := fun _ => some [⟨"html", 200, ""⟩],
    parseHTML := fun c => some ⟨c⟩ }

/-- C9: once the batch transport answers, GetBatch proceeds on the body
alone — the batch HTTP status code never influences the result; decoded
results are paired with requested URLs purely by position (a zip); and
consequently some requested URLs can end up in neither returned map: a
non-200 batch response decoding to an empty envelope accounts for no URL
at all, and an envelope with fewer results than URLs leaves the tail URLs
unaccounted for. -/
theorem fetch_C9 :
    (∀ (env : FetchEnv) (urls : List String) (body : String) (st : ℕ) (rb : String),
      env.marshalBatch urls = some body → env.newRequestOk = true →
      env.transport body = .ok st rb →
      GetBatch env urls =
        (match env.decodeEnvelope rb with
         | none => fallbackLoop env urls
         | some results => processResults env urls results ([], []))) ∧
    (∀ (env : FetchEnv) (urls : List String) (results : List OxyResult)
       (acc : GoMap Doc × GoMap FetchErr),
      processResults env urls results acc
        = (urls.zip results).foldl
            (fun acc p =>
              if p.2.statusCode ≠ 200 then
                (acc.1, acc.2.insertKV p.1 (.pageStatus p.2.statusCode))
              else
                match env.parseHTML p.2.content with
                | none => (acc.1, acc.2.insertKV p.1 .parseErr)
                | some doc => (acc.1.insertKV p.1 doc, acc.2)) acc) ∧
    (((GetBatch envC9 ["u1"]).1).findVal "u1" = none ∧
     ((GetBatch envC9 ["u1"]).2).findVal "u1" = none) ∧
    (((GetBatch envC9b ["v1", "v2"]).1).findVal "v2" = none ∧
     ((GetBatch envC9b ["v1", "v2"]).2).findVal "v2" = none ∧
     ((GetBatch envC9b ["v1", "v2"]).1).findVal "v1" = some ⟨"html"⟩) := by
  refine ⟨?_, ?_, by constructor <;> decide, by refine ⟨?_, ?_, ?_⟩ <;> decide⟩
  · intro env urls body st rb h1 h2 h3
    simp [GetBatch, h1, h2, h3]
  · intro env urls
    induction urls with
    | nil => intro results acc; cases results <;> simp [processResults]
    | cons u us ih =>
      intro results acc
      cases results with
      | nil => simp [processResults]
      | cons r rs =>
        by_cases hs : r.statusCode = 200
        · cases hp : env.parseHTML r.content with
          | none => simp [processResults, hs, hp, ih]
          | some d0 => simp [processResults, hs, hp, ih]
        · simp [processResults, hs, ih]

/-- Witness for fetch_C9 at the empty-envelope environment. -/
theorem fetch_C9_witness :
    GetBatch envC9 ["u1"] =
      (match envC9.decodeEnvelope "emptyenv" with
       | none => fallbackLoop envC9 ["u1"]
       | some results => processResults envC9 ["u1"] results ([], [])) :=
  fetch_C9.1 envC9 ["u1"] "b" 503 "emptyenv" rfl rfl rfl

/-! ## Scrape orchestrator (internal/scraper/scraper.go, ScrapeTicker) -/

/-- Environment of the orchestrator: the fetch environment plus the three
opaque page extractors. -/
structure ScrapeEnv where
  fetch : FetchEnv
  parseOverviewPage : Doc → GoMap GoVal
  parseFinancialsPage : Doc → GoMap GoVal
  parseDisclosurePage : Doc → GoMap GoVal

/-- The scraped snapshot of one ticker: the three page dictionaries and the
recorded per-page error strings. -/
structure ScrapedData where
  ticker : String
  overview : GoMap GoVal
  financials : GoMap GoVal
  disclosure : GoMap GoVal
  errors : List String

/-- Calls made on the health monitor during one scrape. -/
inductive MonitorEvent where
  | recordFailure (ticker msg url : String)
  | recordSuccess (ticker : String)
deriving Repr, DecidableEq

/-- Whether a monitor call is a per-page failure record. -/
def isFailureEvent : MonitorEvent → Bool
  | .recordFailure _ _ _ => true
  | .recordSuccess _ => false

/-- The three page URLs derived for one ticker. -/
def tickerURLs (ticker : String) : List String :=
  ["https://www.otcmarkets.com/stock/" ++ ticker ++ "/overview",
   "https://www.otcmarkets.com/stock/" ++ ticker ++ "/financials",
   "https://www.otcmarkets.com/stock/" ++ ticker ++ "/disclosure"]

/-- The Go error text of each fetch error layer. -/
def fetchErrMsg : FetchErr → String
  | .ctxCancelled => "context canceled"
  | .marshalErr => "failed to marshal request"
  | .requestErr => "failed to create request"
  | .transportErr m => "failed to perform request: " ++ m
  | .readErr m => "failed to read response: " ++ m
  | .badStatus s b => "unexpected status code " ++ toString s ++ ": " ++ b
  | .decodeErr => "failed to parse OxyLabs response"
  | .noResults => "no results returned from OxyLabs"
  | .pageStatus s => "target page returned status code: " ++ toString s
  | .parseErr => "failed to parse HTML content"

/-- Outcome of processing one page of a ticker. -/
structure PageOutcome where
  attrs : GoMap GoVal
  errList : List String
  events : List MonitorEvent
  hasErr : Bool

/-- One page block of ScrapeTicker: a fetched document is parsed; a fetched
error is recorded as an error string and a per-page monitor failure; a page
in neither map is silently skipped. -/
def processPage (ticker label url : String) (parse : Doc → GoMap GoVal)
    (docs : GoMap Doc) (errs : GoMap FetchErr) : PageOutcome :=
  match docs.findVal url with
  | some doc => { attrs := parse doc, errList := [], events := [], hasErr := false }
  | none =>
    match errs.findVal url with
    | some e =>
      let errorMsg := label ++ ": " ++ fetchErrMsg e
      { attrs := [], errList := [errorMsg],
        events := [.recordFailure ticker errorMsg url], hasErr := true }
    | none => { attrs := [], errList := [], events := [], hasErr := false }

/-- ScrapeTicker after its batch fetch: process the three pages in order,
then record one overall success when there were no page errors or at least
one document was obtained. The call always returns the (possibly partial)
snapshot. -/
def scrapeTickerCore (env : ScrapeEnv) (ticker : String)
    (docs : GoMap Doc) (errs : GoMap FetchErr) : ScrapedData × List MonitorEvent :=
  let overviewURL := "https://www.otcmarkets.com/stock/" ++ ticker ++ "/overview"
  let financialsURL := "https://www.otcmarkets.com/stock/" ++ ticker ++ "/financials"
  let disclosureURL := "https://www.otcmarkets.com/stock/" ++ ticker ++ "/disclosure"
  let p1 := processPage ticker "overview" overviewURL env.parseOverviewPage docs errs
  let p2 := processPage ticker "financials" financialsURL env.parseFinancialsPage docs errs
  let p3 := processPage ticker "disclosure" disclosureURL env.parseDisclosurePage docs errs
  let hasErrors := p1.hasErr || p2.hasErr || p3.hasErr
  let failEvents := p1.events ++ p2.events ++ p3.events
  let events :=
    if !hasErrors || !docs.isEmpty then failEvents ++ [.recordSuccess ticker]
    else failEvents
  ({ ticker := ticker, overview := p1.attrs, financials := p2.attrs,
     disclosure := p3.attrs, errors := p1.errList ++ p2.errList ++ p3.errList },
   events)

/-- ScrapeTicker: one batch fetch over the three page URLs, then the page
processing above. -/
def scrapeTicker (env : ScrapeEnv) (ticker : String) : ScrapedData × List MonitorEvent :=
  let fetched := GetBatch env.fetch (tickerURLs ticker)
  scrapeTickerCore env ticker fetched.1 fetched.2

/-- Whether a page URL failed: absent from the document map and present in
the error map. -/
def pageFailed (docs : GoMap Doc) (errs : GoMap FetchErr) (u : String) : Bool :=
  (docs.findVal u).isNone && (errs.findVal u).isSome

theorem processPage_events_countP (ticker label url : String) (parse : Doc → GoMap GoVal)
    (docs : GoMap Doc) (errs : GoMap FetchErr) :
    ((processPage ticker label url parse docs errs).events).countP isFailureEvent
      = if pageFailed docs errs url then 1 else 0 := by
  cases hd : docs.findVal url with
  | some d => simp [processPage, pageFailed, hd]
  | none =>
    cases he : errs.findVal url with
    | some e => simp [processPage, pageFailed, hd, he, isFailureEvent]
    | none => simp [processPage, pageFailed, hd, he]

theorem processPage_success_count (ticker label url : String) (parse : Doc → GoMap GoVal)
    (docs : GoMap Doc) (errs : GoMap FetchErr) (t' : String) :
    ((processPage ticker label url parse docs errs).events).count (.recordSuccess t') = 0 := by
  cases hd : docs.findVal url with
  | some d => simp [processPage, hd]
  | none =>
    cases he : errs.findVal url with
    | some e => simp [processPage, hd, he]
    | none => simp [processPage, hd, he]

theorem processPage_errList_length (ticker label url : String) (parse : Doc → GoMap GoVal)
    (docs : GoMap Doc) (errs : GoMap FetchErr) :
    ((processPage ticker label url parse docs errs).errList).length
      = if pageFailed docs errs url then 1 else 0 := by
  cases hd : docs.findVal url with
  | some d => simp [processPage, pageFailed, hd]
  | none =>
    cases he : errs.findVal url with
    | some e => simp [processPage, pageFailed, hd, he]
    | none => simp [processPage, pageFailed, hd, he]

theorem processPage_attrs (ticker label url : String) (parse : Doc → GoMap GoVal)
    (docs : GoMap Doc) (errs : GoMap FetchErr) (d : Doc) (h : docs.findVal url = some d) :
    (processPage ticker label url parse docs errs).attrs = parse d := by
  simp [processPage, h]

/-- C4: whenever the batch result contains at least one page document,
ScrapeTicker records exactly one overall success on the health monitor;
each failed page records exactly one per-page failure and contributes
exactly one recorded error string; documents that were obtained are parsed
into the snapshot; and the call is the total composition of the batch
fetch with this processing — it never aborts. -/
theorem scraper_C4 (env : ScrapeEnv) (ticker : String)
    (docs : GoMap Doc) (errs : GoMap FetchErr) :
    (docs ≠ [] →
      ((scrapeTickerCore env ticker docs errs).2).count (.recordSuccess ticker) = 1) ∧
    (((scrapeTickerCore env ticker docs errs).2).countP isFailureEvent
      = ((tickerURLs ticker).countP (pageFailed docs errs))) ∧
    (((scrapeTickerCore env ticker docs errs).1).errors.length
      = ((tickerURLs ticker).countP (pageFailed docs errs))) ∧
    (∀ d, docs.findVal ("https://www.otcmarkets.com/stock/" ++ ticker ++ "/overview") = some d →
      ((scrapeTickerCore env ticker docs errs).1).overview = env.parseOverviewPage d) ∧
    (∀ d, docs.findVal ("https://www.otcmarkets.com/stock/" ++ ticker ++ "/financials") = some d →
      ((scrapeTickerCore env ticker docs errs).1).financials = env.parseFinancialsPage d) ∧
    (∀ d, docs.findVal ("https://www.otcmarkets.com/stock/" ++ ticker ++ "/disclosure") = some d →
      ((scrapeTickerCore env ticker docs errs).1).disclosure = env.parseDisclosurePage d) ∧
    scrapeTicker env ticker
      = scrapeTickerCore env ticker (GetBatch env.fetch (tickerURLs ticker)).1
          (GetBatch env.fetch (tickerURLs ticker)).2 := by
  refine ⟨?_, ?_, ?_, ?_, ?_, ?_, rfl⟩
  · intro hne
    have hdocs : docs.isEmpty = false := by
      cases docs with
      | nil => exact absurd rfl hne
      | cons p m => simp [List.isEmpty]
    simp only [scrapeTickerCore, hdocs, Bool.not_false, Bool.or_true, if_true,
      List.count_append]
    rw [processPage_success_count, processPage_success_count, processPage_success_count]
    simp [List.count_singleton]
  · simp only [scrapeTickerCore]
    by_cases hc : (!((processPage ticker "overview"
          ("https://www.otcmarkets.com/stock/" ++ ticker ++ "/overview")
          env.parseOverviewPage docs errs).hasErr ||
        (processPage ticker "financials"
          ("https://www.otcmarkets.com/stock/" ++ ticker ++ "/financials")
          env.parseFinancialsPage docs errs).hasErr ||
        (processPage ticker "disclosure"
          ("https://www.otcmarkets.com/stock/" ++ ticker ++ "/disclosure")
          env.parseDisclosurePage docs errs).hasErr) || !docs.isEmpty) = true
    · simp only [hc, if_true, List.countP_append]
      rw [processPage_events_countP, processPage_events_countP, processPage_events_countP]
      simp [tickerURLs, List.countP_cons, isFailureEvent]
      ring
    · simp only [Bool.not_eq_true] at hc
      simp only [hc, Bool.false_eq_true, if_false, List.countP_append]
      rw [processPage_events_countP, processPage_events_countP, processPage_events_countP]
      simp [tickerURLs, List.countP_cons]
      ring
  · simp only [scrapeTickerCore, List.length_append]
    rw [processPage_errList_length, processPage_errList_length, processPage_errList_length]
    simp [tickerURLs, List.countP_cons]
    ring
  · intro d hd
    simp only [scrapeTickerCore]
    exact processPage_attrs _ _ _ _ _ _ _ hd
  · intro d hd
    simp only [scrapeTickerCore]
    exact processPage_attrs _ _ _ _ _ _ _ hd
  · intro d hd
    simp only [scrapeTickerCore]
    exact processPage_attrs _ _ _ _ _ _ _ hd

/-- Concrete orchestrator environment for the witness. -/
def senvW : ScrapeEnv :=
  { fetch := envOxy6,
    parseOverviewPage := fun d => [("src", .vStr d.content)],
    parseFinancialsPage := fun _ => [],
    parseDisclosurePage := fun _ => [] }

/-- Concrete batch result: the overview page was obtained, the financials
page failed, the disclosure page is unaccounted for. -/
def docsW : GoMap Doc :=
  [("https://www.otcmarkets.com/stock/TST/overview", ⟨"html"⟩)]

/-- Concrete error map for the witness. -/
def errsW : GoMap FetchErr :=
  [("https://www.otcmarkets.com/stock/TST/financials", .pageStatus 404)]

/-- Witness for scraper_C4: one page obtained suffices for exactly one
overall success, and the obtained page is parsed into the snapshot. -/
theorem scraper_C4_witness :
    ((scrapeTickerCore senvW "TST" docsW errsW).2).count (.recordSuccess "TST") = 1 ∧
    (scrapeTickerCore senvW "TST" docsW errsW).1.overview
      = senvW.parseOverviewPage ⟨"html"⟩ :=
  ⟨(scraper_C4 senvW "TST" docsW errsW).1 (by decide),
   (scraper_C4 senvW "TST" docsW errsW).2.2.2.1 ⟨"html"⟩ (by decide)⟩

/-! ## Scoring pipeline lifecycle (internal/services/scoring_pipeline.go)

The mutex-guarded Start/Stop/IsRunning surface is modelled as an atomic
step relation on an explicit state. The stop channel is created once at
construction; Stop closes it and it is never recreated, so a later Stop
would close an already-closed channel, which panics in Go. A freshly
launched loop always runs one immediate cycle; before every wait it checks
the stop signal and exits once the channel is closed; an interval tick
runs one periodic cycle only in a loop that is still active. -/

/-- Pipeline configuration. -/
structure PipelineConfig where
  batchSize : ℤ
  intervalMinutes : ℤ
  maxConcurrent : ℤ
  processNewOnly : Bool
  rescoreOlderThanDays : ℤ

/-- Pipeline state: the running flag, the stop channel, and the lifecycle
counters of the most recently launched background loop. -/
structure PipelineState where
  isRunning : Bool
  stopChanClosed : Bool
  loopActive : Bool
  loopsLaunched : ℕ
  lastLoopImmediate : ℕ
  lastLoopPeriodic : ℕ
  lastLoopExited : Bool
deriving Repr, DecidableEq

/-- NewScoringPipeline: not running, stop channel open, no loop yet. -/
def initPipeline : PipelineState :=
  { isRunning := false, stopChanClosed := false, loopActive := false,
    loopsLaunched := 0, lastLoopImmediate := 0, lastLoopPeriodic := 0,
    lastLoopExited := true }

/-- Outcome of one lifecycle call. -/
inductive StepOutcome where
  | ok
  | conflictErr
  | panicked
deriving Repr, DecidableEq

/-- A lifecycle call, or the passing of one scheduling interval. -/
inductive PipelineOp where
  | start (cfg : PipelineConfig)
  | stop
  | tick

/-- One atomic step of the pipeline: Start fails with a conflict while
running, else flips the flag and launches exactly one loop (which runs its
immediate cycle and, with the stop channel already closed, exits at its
first check of the stop signal); Stop fails with a conflict while not
running, panics on the already-closed channel, and otherwise closes the
channel, waits out the loop and clears the flag; a tick runs one periodic
cycle in an active loop. -/
def pStep (s : PipelineState) : PipelineOp → PipelineState × StepOutcome
  | .start _ =>
    if s.isRunning then (s, .conflictErr)
    else
      ({ s with isRunning := true,
                loopsLaunched := s.loopsLaunched + 1,
                loopActive := !s.stopChanClosed,
                lastLoopImmediate := 1,
                lastLoopPeriodic := 0,
                lastLoopExited := s.stopChanClosed }, .ok)
  | .stop =>
    if !s.isRunning then (s, .conflictErr)
    else if s.stopChanClosed then (s, .panicked)
    else
      ({ s with isRunning := false, stopChanClosed := true,
                loopActive := false, lastLoopExited := true }, .ok)
  | .tick =>
    if s.loopActive then ({ s with lastLoopPeriodic := s.lastLoopPeriodic + 1 }, .ok)
    else (s, .ok)

/-- Run a call sequence from a given state. -/
def runFrom (s : PipelineState) (ops : List PipelineOp) : PipelineState :=
  ops.foldl (fun s op => (pStep s op).1) s

/-- Run a call sequence from a fresh pipeline. -/
def runPipe (ops : List PipelineOp) : PipelineState :=
  runFrom initPipeline ops

/-- Counterexample to C5 as stated: after start, stop, start — all
accepted — the pipeline is Running, yet the next stop() does not
transition it to Stopped: it panics closing the already-closed stop
channel and leaves the pipeline Running. -/
theorem pipeline_C5_counterexample :
    (runPipe [.start ⟨50, 60, 10, false, 7⟩, .stop, .start ⟨50, 60, 10, false, 7⟩]).isRunning
        = true ∧
    (pStep (runPipe [.start ⟨50, 60, 10, false, 7⟩, .stop, .start ⟨50, 60, 10, false, 7⟩])
        .stop).2 = .panicked ∧
    ((pStep (runPipe [.start ⟨50, 60, 10, false, 7⟩, .stop, .start ⟨50, 60, 10, false, 7⟩])
        .stop).1).isRunning = true := by
  refine ⟨?_, ?_, ?_⟩ <;> decide

/-- C5 as amended: start while Running and stop while not Running are
rejected with a conflict and change nothing; start while not Running
succeeds, transitions to Running and launches exactly one background loop
(launches are guarded by the running flag, so a concurrent start cannot
double-launch); and stop while Running transitions to Stopped after the
loop exits, provided the construction-time stop channel has not already
been closed by an earlier successful Stop — otherwise stop panics. -/
theorem pipeline_C5 (s : PipelineState) (cfg : PipelineConfig) :
    (s.isRunning = true → pStep s (.start cfg) = (s, .conflictErr)) ∧
    (s.isRunning = false → pStep s .stop = (s, .conflictErr)) ∧
    (s.isRunning = false →
      (pStep s (.start cfg)).2 = .ok ∧
      ((pStep s (.start cfg)).1).isRunning = true ∧
      ((pStep s (.start cfg)).1).loopsLaunched = s.loopsLaunched + 1) ∧
    (s.isRunning = true → s.stopChanClosed = false →
      (pStep s .stop).2 = .ok ∧
      ((pStep s .stop).1).isRunning = false ∧
      ((pStep s .stop).1).lastLoopExited = true ∧
      ((pStep s .stop).1).loopActive = false) := by
  refine ⟨?_, ?_, ?_, ?_⟩
  · intro h; simp [pStep, h]
  · intro h; simp [pStep, h]
  · intro h; simp [pStep, h]
  · intro h hc; simp [pStep, h, hc]

/-- Witness for pipeline_C5 on a fresh pipeline. -/
theorem pipeline_C5_witness :
    (pStep initPipeline .stop = (initPipeline, .conflictErr)) ∧
    (pStep initPipeline (.start ⟨50, 60, 10, false, 7⟩)).2 = .ok ∧
    ((pStep initPipeline (.start ⟨50, 60, 10, false, 7⟩)).1).isRunning = true :=
  ⟨(pipeline_C5 initPipeline ⟨50, 60, 10, false, 7⟩).2.1 rfl,
   ((pipeline_C5 initPipeline ⟨50, 60, 10, false, 7⟩).2.2.1 rfl).1,
   ((pipeline_C5 initPipeline ⟨50, 60, 10, false, 7⟩).2.2.1 rfl).2.1⟩

/-- No step reopens the stop channel. -/
theorem stopClosed_mono (s : PipelineState) (op : PipelineOp)
    (h : s.stopChanClosed = true) : ((pStep s op).1).stopChanClosed = true := by
  cases op with
  | start cfg => by_cases hr : s.isRunning <;> simp [pStep, hr, h]
  | stop => by_cases hr : s.isRunning <;> simp [pStep, hr, h]
  | tick => by_cases hl : s.loopActive <;> simp [pStep, hl, h]

/-- The stop channel stays closed over any call sequence. -/
theorem runFrom_stopClosed (ops : List PipelineOp) :
    ∀ (s : PipelineState), s.stopChanClosed = true →
      (runFrom s ops).stopChanClosed = true := by
  induction ops with
  | nil => intro s h; simpa [runFrom] using h
  | cons op rest ih =>
    intro s h
    simpa [runFrom, List.foldl_cons] using ih _ (stopClosed_mono s op h)

/-- A Running pipeline whose stop channel is closed and whose loop has
exited is a fixpoint: start conflicts, stop panics, ticks run no cycle. -/
theorem pipeline_fixpoint (s : PipelineState) (hr : s.isRunning = true)
    (hc : s.stopChanClosed = true) (hl : s.loopActive = false) :
    ∀ op, (pStep s op).1 = s := by
  intro op
  cases op with
  | start cfg => simp [pStep, hr]
  | stop => simp [pStep, hr, hc]
  | tick => simp [pStep, hl]

/-- A fixpoint state is unchanged by any further call sequence. -/
theorem runFrom_fixpoint (ops : List PipelineOp) :
    ∀ (s : PipelineState), s.isRunning = true → s.stopChanClosed = true →
      s.loopActive = false → runFrom s ops = s := by
  induction ops with
  | nil => intro s _ _ _; rfl
  | cons op rest ih =>
    intro s hr hc hl
    rw [runFrom, List.foldl_cons, pipeline_fixpoint s hr hc hl op]
    exact ih s hr hc hl

/-- The state after a successful Stop and, some calls later, a successful
Start. -/
def afterStopStart (pre mid : List PipelineOp) (cfg : PipelineConfig) : PipelineState :=
  (pStep (runFrom (pStep (runPipe pre) .stop).1 mid) (.start cfg)).1

/-- C10: in every call sequence with a successful Stop followed by a
successful Start, the newly launched loop runs exactly its one immediate
cycle and has already exited at its first check of the (never recreated,
already closed) stop signal; no periodic cycle ever runs afterwards, while
the pipeline still reports isRunning true. -/
theorem pipeline_C10 (pre mid post : List PipelineOp) (cfg : PipelineConfig)
    (hstop : (pStep (runPipe pre) .stop).2 = .ok)
    (hstart : (pStep (runFrom (pStep (runPipe pre) .stop).1 mid) (.start cfg)).2 = .ok) :
    (afterStopStart pre mid cfg).lastLoopImmediate = 1 ∧
    (afterStopStart pre mid cfg).lastLoopPeriodic = 0 ∧
    (afterStopStart pre mid cfg).lastLoopExited = true ∧
    (afterStopStart pre mid cfg).loopActive = false ∧
    (afterStopStart pre mid cfg).isRunning = true ∧
    (runFrom (afterStopStart pre mid cfg) post).lastLoopPeriodic = 0 ∧
    (runFrom (afterStopStart pre mid cfg) post).isRunning = true := by
  have h1 : ((pStep (runPipe pre) .stop).1).stopChanClosed = true := by
    by_cases hr : (runPipe pre).isRunning
    · by_cases hc : (runPipe pre).stopChanClosed
      · simp only [pStep, hr, hc] at hstop
        simp at hstop
      · simp only [pStep, hr, hc]
        simp
    · simp only [pStep, Bool.eq_false_iff.mpr hr] at hstop
      simp [hr] at hstop
  set s2 := runFrom (pStep (runPipe pre) .stop).1 mid with hs2def
  have h2 : s2.stopChanClosed = true := runFrom_stopClosed mid _ h1
  have hnr : s2.isRunning = false := by
    by_cases hr : s2.isRunning
    · simp only [pStep, hr] at hstart
      simp at hstart
    · simpa using hr
  have hstep : pStep s2 (.start cfg) =
      ({ s2 with isRunning := true, loopsLaunched := s2.loopsLaunched + 1,
                 loopActive := !s2.stopChanClosed, lastLoopImmediate := 1,
                 lastLoopPeriodic := 0, lastLoopExited := s2.stopChanClosed }, .ok) := by
    simp only [pStep, hnr]
    simp
  have hs3 : afterStopStart pre mid cfg =
      { s2 with isRunning := true, loopsLaunched := s2.loopsLaunched + 1,
                loopActive := false, lastLoopImmediate := 1,
                lastLoopPeriodic := 0, lastLoopExited := true } := by
    rw [afterStopStart, ← hs2def, hstep, h2]
    simp
  have hfix : runFrom (afterStopStart pre mid cfg) post = afterStopStart pre mid cfg := by
    apply runFrom_fixpoint post
    · rw [hs3]
    · rw [hs3]; exact h2
    · rw [hs3]
  rw [hfix, hs3]
  exact ⟨rfl, rfl, rfl, rfl, rfl, rfl, rfl⟩

/-- Witness for pipeline_C10 at a concrete start, stop, start, ticks
sequence. -/
theorem pipeline_C10_witness :
    (afterStopStart [.start ⟨50, 60, 10, false, 7⟩] [] ⟨50, 60, 10, false, 7⟩).isRunning
        = true ∧
    (runFrom (afterStopStart [.start ⟨50, 60, 10, false, 7⟩] [] ⟨50, 60, 10, false, 7⟩)
        [.tick, .tick]).lastLoopPeriodic = 0 :=
  ⟨(pipeline_C10 [.start ⟨50, 60, 10, false, 7⟩] [] [.tick, .tick] ⟨50, 60, 10, false, 7⟩
      (by decide) (by decide)).2.2.2.2.1,
   (pipeline_C10 [.start ⟨50, 60, 10, false, 7⟩] [] [.tick, .tick] ⟨50, 60, 10, false, 7⟩
      (by decide) (by decide)).2.2.2.2.2.1⟩

end OTC
